import Mathlib

/-!
Verification of the Semantic Indexing and Search engine
(`services/agents/semantic_index.py`).

The Python source is shallowly embedded: every definition below is a direct
translation of the corresponding Python function (names are kept, with the
leading underscore dropped where the source uses one).  Strings are modelled
as Lean strings over their character lists; Python string operations
(`strip`, `lstrip`, `startswith`, `in`, `count`, `lower`, `split`, `join`)
are implemented character-exactly for the ASCII inputs the claims concern.
External effects (the OpenAI embedding call, the pgvector database) are
modelled by explicit parameters: fallible calls return `Option`, and the SQL
query of `search_similar_code` is given a relational semantics over the list
of stored rows in storage (insertion) order — any fetched list consistent
with the `WHERE` clause, the descending `ORDER BY` (which carries no
tie-break key) and the `LIMIT` is admissible.
-/

/-- Python `str.isspace` characters relevant to ASCII source text. -/
def pyIsSpace (c : Char) : Bool :=
  c = ' ' || c = '\t' || c = '\n' || c = '\x0b' || c = '\x0c' || c = '\r'

/-- Python `str.lstrip()` on the character list. -/
def pyLstripL (s : List Char) : List Char :=
  s.dropWhile pyIsSpace

/-- Python `str.strip()` on the character list. -/
def pyStripL (s : List Char) : List Char :=
  ((pyLstripL s).reverse.dropWhile pyIsSpace).reverse

/-- Python `str.strip()`. -/
def pyStrip (s : String) : String :=
  ⟨pyStripL s.data⟩

/-- Number of leading whitespace characters: `len(line) - len(line.lstrip())`. -/
def pyIndent (s : String) : Nat :=
  s.data.length - (pyLstripL s.data).length

/-- Whether `pre` is a prefix of `s` (helper for Python `str.startswith`). -/
def beginsWith : List Char → List Char → Bool
  | [], _ => true
  | _ :: _, [] => false
  | a :: as, b :: bs => a = b && beginsWith as bs

/-- Python `s.startswith(pre)`. -/
def pyStartswith (s pre : String) : Bool :=
  beginsWith pre.data s.data

/-- Python substring containment `needle in hay` on character lists. -/
def containsSubL (hay needle : List Char) : Bool :=
  beginsWith needle hay ||
    match hay with
    | [] => false
    | _ :: t => containsSubL t needle

/-- Python `needle in hay` for strings. -/
def containsSub (hay needle : String) : Bool :=
  containsSubL hay.data needle.data

/-- Python `str.lower()` (ASCII case folding). -/
def pyLower (s : String) : String :=
  ⟨s.data.map Char.toLower⟩

/-- Python `s.count(c)` for a single character. -/
def pyCountChar (s : String) (c : Char) : Nat :=
  s.data.count c

/-- Python `content.split(sep)` for a one-character separator: splits at every
occurrence, keeping empty pieces (so a trailing separator yields a final
empty string). -/
def pySplitL (c : Char) : List Char → List (List Char)
  | [] => [[]]
  | a :: t =>
    let r := pySplitL c t
    if a = c then [] :: r
    else (a :: r.headI) :: r.tail

/-- Python `content.split('\n')` as strings. -/
def pySplitLines (content : String) : List String :=
  (pySplitL '\n' content.data).map fun l => ⟨l⟩

/-- Python `'\n'.join(lines)`. -/
def pyJoinLines (lines : List String) : String :=
  ⟨List.intercalate ['\n'] (lines.map String.data)⟩

/-- A file descriptor as consumed by the indexing service: the keys of the
`file_info` dict that `_filter_indexable_files` reads (`path`, `extension`,
`size`).  `content_preview` and `language` are carried separately where
needed. -/
structure FileInfo where
  path : String
  extension : String
  size : Nat
deriving DecidableEq, Repr

/-- The extension whitelist of `_filter_indexable_files` (source lines
524-529). -/
def indexable_extensions : List String :=
  [".py", ".js", ".jsx", ".ts", ".tsx", ".java", ".go", ".rs",
   ".cpp", ".c", ".h", ".hpp", ".cs", ".php", ".rb", ".swift",
   ".kt", ".scala", ".sql", ".html", ".css", ".scss", ".less",
   ".json", ".yaml", ".yml", ".xml", ".sh", ".bash", ".zsh"]

/-- The path-substring blacklist of `_filter_indexable_files` (source lines
531-534). -/
def exclude_patterns : List String :=
  ["test", "spec", "mock", "fixture", "node_modules", "__pycache__",
   ".git", "dist", "build", "target", "coverage", ".vscode", ".idea"]

/-- Direct translation of the loop body of `_filter_indexable_files`
(source lines 536-555): the three `continue` guards in source order —
extension whitelist, then path blacklist, then the 1 MiB size ceiling. -/
def filter_indexable_files : List FileInfo → List FileInfo
  | [] => []
  | f :: rest =>
    if pyLower f.extension ∉ indexable_extensions then
      filter_indexable_files rest
    else if exclude_patterns.any (fun p => containsSub (pyLower f.path) p) then
      filter_indexable_files rest
    else if 1024 * 1024 < f.size then
      filter_indexable_files rest
    else
      f :: filter_indexable_files rest

/-- The conjunction of the three checks of `_filter_indexable_files`, as a
single predicate on one file descriptor. -/
def isIndexableFile (f : FileInfo) : Bool :=
  decide (pyLower f.extension ∈ indexable_extensions) &&
  !(exclude_patterns.any fun p => containsSub (pyLower f.path) p) &&
  decide (f.size ≤ 1024 * 1024)

/-- `[a-zA-Z_]`, the first character of an identifier in the source regexes. -/
def isIdentStart (c : Char) : Bool := c.isAlpha || c = '_'

/-- `[a-zA-Z0-9_]`, a continuation character of an identifier. -/
def isIdentChar (c : Char) : Bool := c.isAlphanum || c = '_'

/-- Match a literal character sequence, returning the rest of the input. -/
def dropLit : List Char → List Char → Option (List Char)
  | [], s => some s
  | _ :: _, [] => none
  | a :: as, b :: bs => if a = b then dropLit as bs else none

/-- Regex `\s*` (greedy; all following tokens in the source patterns start
with a non-whitespace character, so maximal munch is exact). -/
def wsStar (s : List Char) : List Char := s.dropWhile pyIsSpace

/-- Regex `\s+` (greedy, at least one whitespace character). -/
def wsPlus : List Char → Option (List Char)
  | [] => none
  | c :: t => if pyIsSpace c then some (t.dropWhile pyIsSpace) else none

/-- Regex `[a-zA-Z_][a-zA-Z0-9_]*` (greedy), returning the identifier and the
rest. -/
def identAfter : List Char → Option (List Char × List Char)
  | [] => none
  | c :: t =>
    if isIdentStart c then
      let p := t.span isIdentChar
      some (c :: p.1, p.2)
    else none

/-- Regex `\([^)]*\)`: an opening parenthesis, any non-`)` characters, a
closing parenthesis. -/
def parenGroup (s : List Char) : Option (List Char) :=
  (dropLit "(".data s).bind fun u =>
    dropLit ")".data (u.dropWhile fun c => c ≠ ')')

/-- The suffix `def\s+([a-zA-Z_][a-zA-Z0-9_]*)\s*\(` of the Python
function-name pattern (source line 453). -/
def matchPyDefCore (s : List Char) : Option (String × List Char) :=
  (dropLit "def".data s).bind fun t =>
  (wsPlus t).bind fun t =>
  (identAfter t).bind fun p =>
  (dropLit "(".data (wsStar p.2)).map fun r => (⟨p.1⟩, r)

/-- The Python function-name pattern
`(?:async\s+)?def\s+([a-zA-Z_][a-zA-Z0-9_]*)\s*\(` anchored at the current
position; the optional `async\s+` prefix backtracks as in the regex engine. -/
def matchPyDef (s : List Char) : Option (String × List Char) :=
  match (dropLit "async".data s).bind wsPlus with
  | some t => matchPyDefCore t <|> matchPyDefCore s
  | none => matchPyDefCore s

/-- The Python class-name pattern
`class\s+([a-zA-Z_][a-zA-Z0-9_]*)\s*(?:\([^)]*\))?\s*:` anchored at the
current position (source line 469). -/
def matchPyClass (s : List Char) : Option (String × List Char) :=
  (dropLit "class".data s).bind fun t =>
  (wsPlus t).bind fun t =>
  (identAfter t).bind fun p =>
  let t1 := wsStar p.2
  let finish : List Char → Option (String × List Char) := fun u =>
    (dropLit ":".data (wsStar u)).map fun r => (⟨p.1⟩, r)
  match parenGroup t1 with
  | some u => finish u <|> finish t1
  | none => finish t1

/-- The suffix `function\s+([a-zA-Z_][a-zA-Z0-9_]*)\s*\(` of the first
alternative of the JavaScript function pattern (source line 455). -/
def matchJsFnCore (s : List Char) : Option (String × List Char) :=
  (dropLit "function".data s).bind fun t =>
  (wsPlus t).bind fun t =>
  (identAfter t).bind fun p =>
  (dropLit "(".data (wsStar p.2)).map fun r => (⟨p.1⟩, r)

/-- Second alternative of the JavaScript function pattern:
`const\s+([a-zA-Z_][a-zA-Z0-9_]*)\s*=\s*(?:function|\([^)]*\)\s*=>)`. -/
def matchJsConst (s : List Char) : Option (String × List Char) :=
  (dropLit "const".data s).bind fun t =>
  (wsPlus t).bind fun t =>
  (identAfter t).bind fun p =>
  (dropLit "=".data (wsStar p.2)).bind fun t =>
  let t := wsStar t
  match dropLit "function".data t with
  | some r => some (⟨p.1⟩, r)
  | none =>
    (parenGroup t).bind fun u =>
    (dropLit "=>".data (wsStar u)).map fun r => (⟨p.1⟩, r)

/-- The JavaScript/TypeScript function pattern (both alternatives, in the
regex's order; the code keeps `match[0] or match[1]`, i.e. whichever group
captured). -/
def matchJsFn (s : List Char) : Option (String × List Char) :=
  (match (dropLit "async".data s).bind wsPlus with
   | some t => matchJsFnCore t <|> matchJsFnCore s
   | none => matchJsFnCore s) <|> matchJsConst s

/-- Regex `[a-zA-Z_][a-zA-Z0-9_<>]*` (greedy), the Java type token. -/
def typeTokAfter : List Char → Option (List Char)
  | [] => none
  | c :: t =>
    if isIdentStart c then
      some (t.dropWhile fun c => isIdentChar c || c = '<' || c = '>')
    else none

/-- Tail of the Java method pattern after the optional modifiers:
`[a-zA-Z_][a-zA-Z0-9_<>]*\s+([a-zA-Z_][a-zA-Z0-9_]*)\s*\(`. -/
def matchJavaFnTail (s : List Char) : Option (String × List Char) :=
  (typeTokAfter s).bind fun t =>
  (wsPlus t).bind fun t =>
  (identAfter t).bind fun p =>
  (dropLit "(".data (wsStar p.2)).map fun r => (⟨p.1⟩, r)

/-- Java pattern after the optional access modifier:
`\s*(?:static\s+)?(?:final\s+)?` then the tail; each optional group
backtracks to the not-taken branch exactly as the regex engine does. -/
def matchJavaAfterMod (s : List Char) : Option (String × List Char) :=
  let t := wsStar s
  let afterStatic : List Char → Option (String × List Char) := fun u =>
    match (dropLit "final".data u).bind wsPlus with
    | some v => matchJavaFnTail v <|> matchJavaFnTail u
    | none => matchJavaFnTail u
  match (dropLit "static".data t).bind wsPlus with
  | some v => afterStatic v <|> afterStatic t
  | none => afterStatic t

/-- The Java method pattern (source line 457):
`(?:public|private|protected)?\s*(?:static\s+)?(?:final\s+)?[a-zA-Z_][a-zA-Z0-9_<>]*\s+([a-zA-Z_][a-zA-Z0-9_]*)\s*\(`,
alternatives tried in the regex's order. -/
def matchJavaFn (s : List Char) : Option (String × List Char) :=
  ((dropLit "public".data s).bind matchJavaAfterMod) <|>
  ((dropLit "private".data s).bind matchJavaAfterMod) <|>
  ((dropLit "protected".data s).bind matchJavaAfterMod) <|>
  matchJavaAfterMod s

/-- Shared tail `\s*(?:extends\s+[a-zA-Z_][a-zA-Z0-9_]*)?\s*\{?` of the
JavaScript and Java class patterns: always succeeds, consuming greedily. -/
def classTail (t : List Char) : List Char :=
  let t1 := wsStar t
  let t2 :=
    match (dropLit "extends".data t1).bind wsPlus with
    | some u =>
      match identAfter u with
      | some p => p.2
      | none => t1
    | none => t1
  let t3 := wsStar t2
  match dropLit "\x7b".data t3 with
  | some r => r
  | none => t3

/-- The JavaScript/TypeScript class pattern (source line 473):
`class\s+([a-zA-Z_][a-zA-Z0-9_]*)\s*(?:extends\s+[a-zA-Z_][a-zA-Z0-9_]*)?\s*\{?`. -/
def matchJsClass (s : List Char) : Option (String × List Char) :=
  (dropLit "class".data s).bind fun t =>
  (wsPlus t).bind fun t =>
  (identAfter t).map fun p => (⟨p.1⟩, classTail p.2)

/-- The Java class pattern (source line 471), which additionally allows an
optional `public\s+` prefix. -/
def matchJavaClass (s : List Char) : Option (String × List Char) :=
  match (dropLit "public".data s).bind wsPlus with
  | some t => matchJsClass t <|> matchJsClass s
  | none => matchJsClass s

/-- `re.findall` driver: scan left to right, at each position try the
anchored pattern; on a match emit the captured group and resume after the
consumed span (every source pattern consumes at least one character, so the
input length is sufficient fuel). -/
def scanGo (m : List Char → Option (String × List Char)) : Nat → List Char → List String
  | 0, _ => []
  | _, [] => []
  | fuel + 1, c :: rest =>
    match m (c :: rest) with
    | some p => p.1 :: scanGo m fuel p.2
    | none => scanGo m fuel rest

/-- `re.findall pattern content` returning the captured names in order. -/
def scanAll (m : List Char → Option (String × List Char)) (s : String) : List String :=
  scanGo m s.data.length s.data

/-- `_extract_functions` (source lines 448-462): per-language function-name
pattern; unmapped languages yield `[]`. -/
def extract_functions (content language : String) : List String :=
  if language = "python" then scanAll matchPyDef content
  else if language = "javascript" ∨ language = "typescript" then scanAll matchJsFn content
  else if language = "java" then scanAll matchJavaFn content
  else []

/-- `_extract_classes` (source lines 464-478): per-language class-name
pattern; unmapped languages yield `[]`. -/
def extract_classes (content language : String) : List String :=
  if language = "python" then scanAll matchPyClass content
  else if language = "java" then scanAll matchJavaClass content
  else if language = "javascript" ∨ language = "typescript" then scanAll matchJsClass content
  else []

/-- `_determine_chunk_type` (source lines 509-520): first matching rule wins.
Python truthiness of a list is non-emptiness. -/
def determine_chunk_type (content : String) (functions classes : List String) : String :=
  if classes ≠ [] then "class"
  else if functions ≠ [] then "function"
  else if ["config", "settings", "env"].any (fun k => containsSub (pyLower content) k) then "config"
  else if ["test", "spec"].any (fun k => containsSub (pyLower content) k) then "test"
  else "general"

/-- The `CodeChunk` dataclass (source lines 23-35).  The `imports` field and
the `metadata` dict (line count, char count, md5 hash) are not referenced by
any verified claim and are omitted; the md5 hash in particular is computed by
an external library. -/
structure CodeChunk where
  file_path : String
  chunk_type : String
  content : String
  start_line : Nat
  end_line : Nat
  language : String
  functions : List String
  classes : List String
deriving DecidableEq, Repr

/-- `_create_chunk` (source lines 412-446) restricted to the modelled fields;
the unused `raw_lines` parameter of the source is dropped. -/
def create_chunk (content file_path language : String) (start_line end_line : Nat) : CodeChunk :=
  let functions := extract_functions content language
  let classes := extract_classes content language
  let chunk_type := determine_chunk_type content functions classes
  ⟨file_path, chunk_type, content, start_line, end_line, language, functions, classes⟩

/-- Loop state of `_chunk_python_code` (source lines 261-267): accumulated
chunks, the buffered lines, `current_start`, the loop counter `current_line`,
the tracked `indent_level` and the `in_function` / `in_class` flags. -/
structure PyChunkState where
  chunks : List CodeChunk
  current_chunk : List String
  current_start : Nat
  current_line : Nat
  indent_level : Nat
  in_function : Bool
  in_class : Bool
deriving Repr

/-- The `# Track indentation` section of the `_chunk_python_code` loop body
(source lines 272-284): on a non-blank line, flush the buffer at a dedent
outside a function/class body and record the new indentation;
`current_line` is the 1-based number of the line being processed. -/
def chunk_python_track (file_path line : String) (current_line : Nat)
    (st : PyChunkState) : PyChunkState :=
  if pyStrip line ≠ "" then
    let new_indent := pyIndent line
    if new_indent < st.indent_level ∧ st.in_function = false ∧ st.in_class = false then
      let chunks1 :=
        if st.current_chunk ≠ [] then
          st.chunks ++ [create_chunk (pyJoinLines st.current_chunk) file_path "python"
            st.current_start (current_line - 1)]
        else st.chunks
      { st with chunks := chunks1, current_chunk := [],
                current_start := current_line, indent_level := new_indent }
    else { st with indent_level := new_indent }
  else st

/-- The `# Detect function/class definitions` section of the loop body
(source lines 286-294): only the two flags change. -/
def chunk_python_detect (line : String) (st : PyChunkState) : PyChunkState :=
  let stripped := pyStrip line
  if (pyStartswith stripped "def " || pyStartswith stripped "async def ") && !st.in_class then
    { st with in_function := true }
  else if pyStartswith stripped "class " then
    { st with in_class := true }
  else if stripped ≠ "" ∧ pyStartswith line " " = false ∧ st.indent_level = 0 then
    { st with in_function := false, in_class := false }
  else st

/-- One iteration of the `for i, line in enumerate(lines)` loop of
`_chunk_python_code` (source lines 269-296): indentation tracking with the
dedent flush, then function/class detection, then `current_chunk.append(line)`. -/
def chunk_python_step (file_path : String) (st : PyChunkState) (line : String) : PyChunkState :=
  let current_line := st.current_line + 1
  let st2 := chunk_python_detect line (chunk_python_track file_path line current_line st)
  { st2 with current_chunk := st2.current_chunk ++ [line], current_line := current_line }

/-- `_chunk_python_code` (source lines 258-305): fold the step over the lines
and flush the final buffered chunk with `end_line = current_line`. -/
def chunk_python_code (lines : List String) (file_path : String) : List CodeChunk :=
  let st := lines.foldl (chunk_python_step file_path) ⟨[], [], 0, 0, 0, false, false⟩
  if st.current_chunk ≠ [] then
    st.chunks ++ [create_chunk (pyJoinLines st.current_chunk) file_path "python"
      st.current_start st.current_line]
  else st.chunks

/-- Loop state shared by `_chunk_javascript_code` and `_chunk_java_code`
(source lines 310-314 and 351-355); `brace_count` may go negative, hence
`Int`. -/
structure BraceChunkState where
  chunks : List CodeChunk
  current_chunk : List String
  current_start : Nat
  current_line : Nat
  brace_count : Int
deriving Repr

/-- Keyword part of the boundary condition of `_chunk_javascript_code`
(source lines 324-326): `function `, `const ` with a `=`, or `class `. -/
def js_boundary (stripped : String) : Bool :=
  pyStartswith stripped "function " ||
  (pyStartswith stripped "const " && containsSub stripped "=") ||
  pyStartswith stripped "class "

/-- Keyword part of the boundary condition of `_chunk_java_code`
(source lines 365-367): `public class `, `private class `, or `public ` with
a parenthesis. -/
def java_boundary (stripped : String) : Bool :=
  pyStartswith stripped "public class " ||
  pyStartswith stripped "private class " ||
  (pyStartswith stripped "public " && containsSub stripped "(")

/-- The boundary flush of the loop shared by `_chunk_javascript_code`
(source lines 322-335) and `_chunk_java_code` (363-376): when the keyword
boundary or the balance-zero boundary fires and the buffer is non-empty,
emit the buffered chunk ending at the previous line and restart the buffer
at the current line. -/
def chunk_brace_flush (boundary : String → Bool) (language file_path line : String)
    (current_line : Nat) (brace_count : Int) (st : BraceChunkState) : BraceChunkState :=
  let stripped := pyStrip line
  if boundary stripped
      ∨ (brace_count = 0 ∧ st.current_chunk ≠ [] ∧ pyStartswith stripped "//" = false) then
    if st.current_chunk ≠ [] then
      { st with
          chunks := st.chunks ++ [create_chunk (pyJoinLines st.current_chunk) file_path language
            st.current_start (current_line - 1)],
          current_chunk := [], current_start := current_line }
    else st
  else st

/-- One iteration of the loop shared by `_chunk_javascript_code` (source
lines 316-337) and `_chunk_java_code` (357-378): update the running brace
balance, run the boundary flush, then append the line. -/
def chunk_brace_step (boundary : String → Bool) (language file_path : String)
    (st : BraceChunkState) (line : String) : BraceChunkState :=
  let current_line := st.current_line + 1
  let brace_count := st.brace_count + (pyCountChar line '\x7b' : Int) - (pyCountChar line '\x7d' : Int)
  let st1 := chunk_brace_flush boundary language file_path line current_line brace_count st
  { st1 with current_chunk := st1.current_chunk ++ [line],
             current_line := current_line, brace_count := brace_count }

/-- The fold-and-final-flush shape shared by the two brace-counting chunkers
(source lines 307-346 and 348-387). -/
def chunk_brace_code (boundary : String → Bool) (language : String)
    (lines : List String) (file_path : String) : List CodeChunk :=
  let st := lines.foldl (chunk_brace_step boundary language file_path) ⟨[], [], 0, 0, 0⟩
  if st.current_chunk ≠ [] then
    st.chunks ++ [create_chunk (pyJoinLines st.current_chunk) file_path language
      st.current_start st.current_line]
  else st.chunks

/-- `_chunk_javascript_code` (source lines 307-346); chunks are tagged
`javascript` even for TypeScript input, as in the source. -/
def chunk_javascript_code (lines : List String) (file_path : String) : List CodeChunk :=
  chunk_brace_code js_boundary "javascript" lines file_path

/-- `_chunk_java_code` (source lines 348-387). -/
def chunk_java_code (lines : List String) (file_path : String) : List CodeChunk :=
  chunk_brace_code java_boundary "java" lines file_path

/-- `self.chunk_size` (source line 57). -/
def chunk_size : Nat := 500

/-- `self.chunk_overlap` (source line 58). -/
def chunk_overlap : Nat := 50

/-- Python `range(0, stop, step)` for `step > 0`, by the library law
`r[i] = step * i` for `0 ≤ i < (stop + step - 1) // step`. -/
def pyRange0 (stop step : Nat) : List Nat :=
  (List.range ((stop + step - 1) / step)).map fun k => step * k

/-- The character windows of `_chunk_code_by_size` (source lines 395-396):
start positions `range(0, content_length, chunk_size - chunk_overlap)`, each
window ending at `min(start + chunk_size, content_length)`. -/
def sizeWindows (n : Nat) : List (Nat × Nat) :=
  (pyRange0 n (chunk_size - chunk_overlap)).map fun s => (s, min (s + chunk_size) n)

/-- Python slice `content[s:e]`. -/
def pySlice (content : String) (s e : Nat) : String :=
  ⟨(content.data.drop s).take (e - s)⟩

/-- `_chunk_code_by_size` (source lines 389-410): fixed-size windows with
overlap; `start_line` is one plus the newlines before the window and
`end_line` adds the newlines inside the window. -/
def chunk_code_by_size (content file_path language : String) : List CodeChunk :=
  (sizeWindows content.data.length).map fun w =>
    let chunk_content := pySlice content w.1 w.2
    let lines_before := (content.data.take w.1).count '\n'
    let start_line := lines_before + 1
    let end_line := start_line + chunk_content.data.count '\n'
    create_chunk chunk_content file_path language start_line end_line

/-- `_chunk_code_by_structure` (source lines 239-256): split on newlines and
dispatch on the language tag, falling back to size-based chunking. -/
def chunk_code_by_structure (content file_path language : String) : List CodeChunk :=
  if language = "python" then chunk_python_code (pySplitLines content) file_path
  else if language = "javascript" ∨ language = "typescript" then
    chunk_javascript_code (pySplitLines content) file_path
  else if language = "java" then chunk_java_code (pySplitLines content) file_path
  else chunk_code_by_size content file_path language

/-- The summary dict returned by `index_repository` (source lines 91-97). -/
structure IndexSummary where
  repository_id : String
  files_processed : Nat
  chunks_created : Nat
  embeddings_generated : Nat
  indexed_at : String
deriving DecidableEq, Repr

/-- Per-file body of the `index_repository` loop (source lines 73-89).  The
awaited `_chunk_file` call is abstracted as `chunk_file : FileInfo → Option
(List CodeChunk)`; `none` models an exception caught by the per-file
`except` handler, in which case neither counter is touched.
`generate_embedding` abstracts the external `_generate_embedding` call,
which returns `None` (here `none`) on provider failure; `_store_chunk`
swallows its own errors and returns nothing observable, so it does not
appear.  The accumulator is `(chunks_created, embeddings_generated)`. -/
def index_file_step (chunk_file : FileInfo → Option (List CodeChunk))
    (generate_embedding : String → Option (List ℚ))
    (acc : Nat × Nat) (f : FileInfo) : Nat × Nat :=
  match chunk_file f with
  | none => acc
  | some chunks =>
    (acc.1 + chunks.length,
     acc.2 + (chunks.filter fun c => (generate_embedding c.content).isSome).length)

/-- `index_repository` (source lines 63-97): filter the files, run the
per-file loop with per-file failure isolation, and return the summary;
`files_processed` is `len(indexable_files)` (source line 93). -/
def index_repository (repository_id : String) (files : List FileInfo)
    (chunk_file : FileInfo → Option (List CodeChunk))
    (generate_embedding : String → Option (List ℚ)) : IndexSummary :=
  let indexable_files := filter_indexable_files files
  let counters := indexable_files.foldl (index_file_step chunk_file generate_embedding) (0, 0)
  ⟨repository_id, indexable_files.length, counters.1, counters.2, "2024-01-16T22:30:00Z"⟩

/-- `self.max_tokens` (source line 56), the ada-002 token limit. -/
def max_tokens : Nat := 8191

/-- The truncation step of `_generate_embedding` (source lines 563-567):
count tokens with the model tokenizer; if the count exceeds `max_tokens`,
replace the text by `decode(encode(text)[:max_tokens])`.  The tiktoken
tokenizer is abstracted as the pair `(encode, decode)`; the result is the
text handed to the provider call. -/
def truncate_for_embedding (encode : String → List Nat) (decode : List Nat → String)
    (text : String) : String :=
  if max_tokens < (encode text).length then decode ((encode text).take max_tokens)
  else text

/-- One stored `code_chunks` row as read by the SQL query of
`search_similar_code` (source lines 120-133).  The pgvector embedding and
the metadata column are abstracted away: the cosine-distance operator
`embedding <=> query_vector` enters only through the per-row similarity
function passed to the query model. -/
structure StoredRow where
  repository_id : String
  file_path : String
  content : String
  chunk_type : String
  language : String
deriving DecidableEq, Repr

/-- The `SearchResult` dataclass (source lines 38-46) without the `context`
metadata dict, which no claim mentions. -/
structure SearchResult where
  file_path : String
  content : String
  similarity_score : ℚ
  chunk_type : String
  language : String
deriving DecidableEq, Repr

/-- The `WHERE` clause of the query (source lines 129-130): the optional
repository filter, and `1 - (embedding <=> qv) > :similarity_threshold`
(strict).  `sim r` denotes the similarity `1 - (embedding <=> qv)` of row
`r` to the query vector. -/
def rowPasses (sim : StoredRow → ℚ) (repository_ids : Option (List String))
    (similarity_threshold : ℚ) (r : StoredRow) : Bool :=
  (match repository_ids with
   | none => true
   | some ids => decide (r.repository_id ∈ ids)) &&
  decide (similarity_threshold < sim r)

/-- Relational semantics of the SQL query of `search_similar_code` (source
lines 120-140) over the stored rows in storage (insertion) order: `out` is
an admissible fetched row list iff it is `LIMIT :limit` of some permutation
of the `WHERE`-filtered rows that is sorted by non-increasing similarity.
The `ORDER BY similarity_score DESC` has no secondary sort key and the
database's sort is not specified to be stable, so ANY descending-sorted
permutation of the filtered rows is admissible — in particular the relative
order of equal-similarity rows is not determined by the program. -/
def sql_query_outcome (rows : List StoredRow) (sim : StoredRow → ℚ)
    (repository_ids : Option (List String)) (similarity_threshold : ℚ)
    (limit : Nat) (out : List StoredRow) : Prop :=
  ∃ sorted : List StoredRow,
    sorted.Perm (rows.filter (rowPasses sim repository_ids similarity_threshold)) ∧
    sorted.Pairwise (fun a b => sim b ≤ sim a) ∧
    out = sorted.take limit

/-- The conversion loop of `search_similar_code` (source lines 144-154): the
rows fetched by the database are turned, in order, into `SearchResult`
objects, the selected similarity column becoming `similarity_score`.  The
failure paths of the function (absent query embedding, caught exception)
return `[]` in the source and trivially satisfy every property claimed
here. -/
def search_similar_code_results (sim : StoredRow → ℚ)
    (fetched : List StoredRow) : List SearchResult :=
  fetched.map fun r => ⟨r.file_path, r.content, sim r, r.chunk_type, r.language⟩

/-- Helper: the loop of `_filter_indexable_files` computes exactly the
filter by the conjunction of its three checks. -/
theorem filter_indexable_files_spec (files : List FileInfo) :
    filter_indexable_files files = files.filter isIndexableFile := by
  induction files with
  | nil => rfl
  | cons f rest ih =>
    simp only [filter_indexable_files, List.filter_cons, isIndexableFile]
    by_cases h1 : pyLower f.extension ∈ indexable_extensions
    · by_cases h2 : exclude_patterns.any (fun p => containsSub (pyLower f.path) p)
      · simp [h1, h2, ih]
      · by_cases h3 : 1024 * 1024 < f.size
        · simp [h1, h2, h3, Nat.not_le_of_lt h3, ih]
        · simp [h1, h2, h3, Nat.le_of_not_lt h3, ih]
    · simp [h1, ih]

/-- C8: `_filter_indexable_files` selects exactly the files passing the three
checks — extension in the fixed whitelist, no blacklisted substring in the
lowercased path, size at most 1 MiB — evaluated in that order inside
`filter_indexable_files` (each check `continue`s past the file, so the first
failing check excludes it).  The function is a pure `List` filter: no side
effects. -/
theorem filter_indexable_files_eq_filter (files : List FileInfo) :
    filter_indexable_files files = files.filter isIndexableFile :=
  filter_indexable_files_spec files

/-- C10: the output of `_filter_indexable_files` is a subsequence of its
input — every selected descriptor comes from the input, relative order is
preserved, and nothing is duplicated or introduced. -/
theorem filter_indexable_files_sublist (files : List FileInfo) :
    (filter_indexable_files files).Sublist files := by
  rw [filter_indexable_files_spec]
  exact List.filter_sublist files

/-- C9: `_determine_chunk_type` applies the first matching rule in order:
non-empty extracted classes give `class`; else non-empty extracted functions
give `function`; else a config/settings/env keyword in the lowercased
content gives `config`; else a test/spec keyword gives `test`; else
`general`. -/
theorem determine_chunk_type_first_match (content : String) (functions classes : List String) :
    (determine_chunk_type content functions classes = "class" ↔ classes ≠ []) ∧
    (determine_chunk_type content functions classes = "function" ↔
      classes = [] ∧ functions ≠ []) ∧
    (determine_chunk_type content functions classes = "config" ↔
      classes = [] ∧ functions = [] ∧
      (["config", "settings", "env"].any fun k => containsSub (pyLower content) k) = true) ∧
    (determine_chunk_type content functions classes = "test" ↔
      classes = [] ∧ functions = [] ∧
      (["config", "settings", "env"].any fun k => containsSub (pyLower content) k) = false ∧
      (["test", "spec"].any fun k => containsSub (pyLower content) k) = true) ∧
    (determine_chunk_type content functions classes = "general" ↔
      classes = [] ∧ functions = [] ∧
      (["config", "settings", "env"].any fun k => containsSub (pyLower content) k) = false ∧
      (["test", "spec"].any fun k => containsSub (pyLower content) k) = false) := by
  unfold determine_chunk_type
  set b1 := (["config", "settings", "env"].any fun k => containsSub (pyLower content) k) with hb1
  set b2 := (["test", "spec"].any fun k => containsSub (pyLower content) k) with hb2
  clear hb1 hb2
  split_ifs with h1 h2 h3 h4 <;> simp_all

/-- C7: when the token count of `text` exceeds `max_tokens`, the text sent to
the embedding call is exactly `decode(encode(text)[:max_tokens])`, the cut
happens exactly at the `max_tokens` token boundary, and any identical input
produces the identical truncated text (the truncation is a pure function of
the input). -/
theorem truncate_for_embedding_spec (encode : String → List Nat) (decode : List Nat → String)
    (text : String) (h : max_tokens < (encode text).length) :
    truncate_for_embedding encode decode text = decode ((encode text).take max_tokens) ∧
    ((encode text).take max_tokens).length = max_tokens ∧
    ∀ other : String, other = text →
      truncate_for_embedding encode decode other = decode ((encode text).take max_tokens) := by
  refine ⟨?_, ?_, ?_⟩
  · simp [truncate_for_embedding, h]
  · simp [List.length_take]
    omega
  · intro other ho
    subst ho
    simp [truncate_for_embedding, h]

/-- A tokenizer whose encoding always exceeds the token limit, used only to
witness `truncate_for_embedding_spec`. -/
def encW : String → List Nat := fun _ => List.replicate 8192 0

/-- A decoder for the witness of `truncate_for_embedding_spec`. -/
def decW : List Nat → String := fun l => ⟨List.replicate l.length 'a'⟩

/-- Witness for C7 at the concrete tokenizer `encW`/`decW` and input `"x"`. -/
theorem truncate_for_embedding_spec_witness :
    max_tokens < (encW "x").length ∧
    (truncate_for_embedding encW decW "x" = decW ((encW "x").take max_tokens) ∧
     ((encW "x").take max_tokens).length = max_tokens ∧
     ∀ other : String, other = "x" →
       truncate_for_embedding encW decW other = decW ((encW "x").take max_tokens)) := by
  have h : max_tokens < (encW "x").length := by
    show max_tokens < (List.replicate 8192 0).length
    rw [List.length_replicate]
    decide
  exact ⟨h, truncate_for_embedding_spec encW decW "x" h⟩

/-- Helper: the per-file fold of `index_repository` adds, to each counter,
the contributions of exactly the files whose chunking succeeded; a file
whose chunking raises (`none`) contributes nothing and processing
continues. -/
theorem index_fold_spec (chunk_file : FileInfo → Option (List CodeChunk))
    (generate_embedding : String → Option (List ℚ)) :
    ∀ (l : List FileInfo) (a b : Nat),
      l.foldl (index_file_step chunk_file generate_embedding) (a, b) =
        (a + ((l.filterMap chunk_file).map List.length).sum,
         b + ((l.filterMap chunk_file).map fun cs =>
            (cs.filter fun c => (generate_embedding c.content).isSome).length).sum) := by
  intro l
  induction l with
  | nil => simp
  | cons f t ih =>
    intro a b
    cases h : chunk_file f with
    | none => simp [index_file_step, h, ih]
    | some cs => simp [index_file_step, h, ih, Nat.add_assoc]

/-- Counterexample to C5 as stated: one indexable file whose per-file
processing fails (the abstracted `_chunk_file` call raises, modelled by
`none`).  Zero files are processed successfully, yet the returned summary
reports `files_processed = 1`, because the source sets `files_processed` to
`len(indexable_files)` (line 93) — the number of files attempted, not the
number processed successfully. -/
theorem index_repository_failed_file_counted :
    index_repository "r" [⟨"a.py", ".py", 0⟩] (fun _ => none) (fun _ => none) =
      ⟨"r", 1, 0, 0, "2024-01-16T22:30:00Z"⟩ := by
  decide

/-- C5 (amended): `index_repository` always returns a summary in which
`files_processed` counts every file selected by the filter — including files
whose processing failed — while `chunks_created` counts only the chunks of
files whose chunking succeeded and `embeddings_generated` counts only the
chunks for which an embedding was produced; a failing file contributes
nothing to the latter two counters and does not abort the processing of the
remaining files (its contribution is simply dropped from the sums). -/
theorem index_repository_counters (repository_id : String) (files : List FileInfo)
    (chunk_file : FileInfo → Option (List CodeChunk))
    (generate_embedding : String → Option (List ℚ)) :
    (index_repository repository_id files chunk_file generate_embedding).files_processed =
      (filter_indexable_files files).length ∧
    (index_repository repository_id files chunk_file generate_embedding).chunks_created =
      (((filter_indexable_files files).filterMap chunk_file).map List.length).sum ∧
    (index_repository repository_id files chunk_file generate_embedding).embeddings_generated =
      (((filter_indexable_files files).filterMap chunk_file).map fun cs =>
        (cs.filter fun c => (generate_embedding c.content).isSome).length).sum := by
  have h := index_fold_spec chunk_file generate_embedding (filter_indexable_files files) 0 0
  refine ⟨rfl, ?_, ?_⟩
  · show (List.foldl (index_file_step chunk_file generate_embedding) (0, 0)
      (filter_indexable_files files)).1 = _
    rw [h]
    simp
  · show (List.foldl (index_file_step chunk_file generate_embedding) (0, 0)
      (filter_indexable_files files)).2 = _
    rw [h]
    simp

/-- The cumulative `{`/`}` balance of a string, as tracked by the
brace-counting chunkers (source lines 320 and 361). -/
def braceBalance (s : String) : Int :=
  (pyCountChar s '\x7b' : Int) - (pyCountChar s '\x7d' : Int)

/-- The failing input for C4: a three-line JavaScript function body. -/
def js_block_lines : List String :=
  ["function f() \x7b", "const x = 1;", "\x7d"]

/-- C4 (the code at the failing input): on `js_block_lines` the
JavaScript/TypeScript brace-counting chunker emits chunks with cumulative
brace balances `[1, 0, -1]` — the first chunk ends mid-block.  Two slips
cause this: the keyword boundaries (`function `/`const `/`class `, source
lines 324-326) fire regardless of the running balance, and the balance-zero
boundary flushes the buffer before appending the line that closed the block,
so the closing `}` lands in the next chunk. -/
theorem chunk_javascript_mid_block_eval :
    (chunk_javascript_code js_block_lines "example.js").map (fun c => braceBalance c.content) =
      [1, 0, -1] := by
  decide

/-- Counterexample to C3 as stated: the Python strategy's first chunk has
`start_line = 0`, not `≥ 1` — `current_start` is initialised to `0`
(source line 263) and is only moved to a real line number at a flush, which
never happens before the first chunk is emitted. -/
theorem chunk_python_start_line_zero :
    (chunk_python_code ["x = 1"] "a.py").map CodeChunk.start_line = [0] := by
  decide

@[simp]
theorem create_chunk_start_line (content file_path language : String) (s e : Nat) :
    (create_chunk content file_path language s e).start_line = s := rfl

@[simp]
theorem create_chunk_end_line (content file_path language : String) (s e : Nat) :
    (create_chunk content file_path language s e).end_line = e := rfl

/-- Invariant of the `_chunk_python_code` loop: every emitted chunk has
`start_line ≤ end_line`, and `current_start` never exceeds the number of
lines consumed so far. -/
def pyStateOk (st : PyChunkState) : Prop :=
  (∀ c ∈ st.chunks, c.start_line ≤ c.end_line) ∧ st.current_start ≤ st.current_line

theorem chunk_python_track_ok (file_path line : String) (st : PyChunkState)
    (h : pyStateOk st) :
    (∀ c ∈ (chunk_python_track file_path line (st.current_line + 1) st).chunks,
      c.start_line ≤ c.end_line) ∧
    (chunk_python_track file_path line (st.current_line + 1) st).current_start ≤
      st.current_line + 1 := by
  obtain ⟨hc, hs⟩ := h
  unfold chunk_python_track
  by_cases h1 : pyStrip line ≠ ""
  · simp only [if_pos h1]
    by_cases h2 : pyIndent line < st.indent_level ∧ st.in_function = false ∧ st.in_class = false
    · simp only [if_pos h2]
      by_cases h3 : st.current_chunk ≠ []
      · simp only [if_pos h3]
        refine ⟨?_, by simp⟩
        intro c hm
        rcases List.mem_append.mp hm with hm2 | hm2
        · exact hc c hm2
        · rcases List.mem_singleton.mp hm2 with rfl
          simp
          omega
      · simp only [if_neg h3]
        exact ⟨hc, by simp⟩
    · simp only [if_neg h2]
      exact ⟨hc, by omega⟩
  · simp only [if_neg h1]
    exact ⟨hc, by omega⟩

theorem chunk_python_detect_fields (line : String) (st : PyChunkState) :
    (chunk_python_detect line st).chunks = st.chunks ∧
    (chunk_python_detect line st).current_start = st.current_start := by
  unfold chunk_python_detect
  dsimp only
  split_ifs <;> exact ⟨rfl, rfl⟩

theorem chunk_python_step_ok (file_path line : String) (st : PyChunkState)
    (h : pyStateOk st) : pyStateOk (chunk_python_step file_path st line) := by
  have ht := chunk_python_track_ok file_path line st h
  have hd := chunk_python_detect_fields line (chunk_python_track file_path line (st.current_line + 1) st)
  unfold chunk_python_step pyStateOk
  dsimp only
  constructor
  · intro c hm
    rw [hd.1] at hm
    exact ht.1 c hm
  · rw [hd.2]
    exact ht.2

theorem chunk_python_foldl_ok (file_path : String) :
    ∀ (lines : List String) (st : PyChunkState), pyStateOk st →
      pyStateOk (lines.foldl (chunk_python_step file_path) st) := by
  intro lines
  induction lines with
  | nil => intro st h; exact h
  | cons l t ih => intro st h; exact ih _ (chunk_python_step_ok file_path l st h)

/-- Every chunk of `_chunk_python_code` has `start_line ≤ end_line`. -/
theorem chunk_python_code_bounds (lines : List String) (file_path : String) :
    ∀ c ∈ chunk_python_code lines file_path, c.start_line ≤ c.end_line := by
  intro c hmem
  unfold chunk_python_code at hmem
  dsimp only at hmem
  have h := chunk_python_foldl_ok file_path lines ⟨[], [], 0, 0, 0, false, false⟩
    ⟨by simp, Nat.le_refl 0⟩
  split at hmem
  · rcases List.mem_append.mp hmem with hm | hm
    · exact h.1 c hm
    · rcases List.mem_singleton.mp hm with rfl
      simpa using h.2
  · exact h.1 c hmem

/-- Invariant of the brace-counting loop, shared by the JavaScript and Java
chunkers. -/
def braceStateOk (st : BraceChunkState) : Prop :=
  (∀ c ∈ st.chunks, c.start_line ≤ c.end_line) ∧ st.current_start ≤ st.current_line

theorem chunk_brace_flush_ok (boundary : String → Bool)
    (language file_path line : String) (bc : Int) (st : BraceChunkState)
    (h : braceStateOk st) :
    (∀ c ∈ (chunk_brace_flush boundary language file_path line (st.current_line + 1) bc st).chunks,
      c.start_line ≤ c.end_line) ∧
    (chunk_brace_flush boundary language file_path line (st.current_line + 1) bc st).current_start ≤
      st.current_line + 1 := by
  obtain ⟨hc, hs⟩ := h
  unfold chunk_brace_flush
  by_cases h1 : boundary (pyStrip line)
      ∨ (bc = 0 ∧ st.current_chunk ≠ [] ∧ pyStartswith (pyStrip line) "//" = false)
  · simp only [if_pos h1]
    by_cases h2 : st.current_chunk ≠ []
    · simp only [if_pos h2]
      refine ⟨?_, by simp⟩
      intro c hm
      rcases List.mem_append.mp hm with hm2 | hm2
      · exact hc c hm2
      · rcases List.mem_singleton.mp hm2 with rfl
        simp
        omega
    · simp only [if_neg h2]
      exact ⟨hc, by omega⟩
  · simp only [if_neg h1]
    exact ⟨hc, by omega⟩

theorem chunk_brace_step_ok (boundary : String → Bool) (language file_path line : String)
    (st : BraceChunkState) (h : braceStateOk st) :
    braceStateOk (chunk_brace_step boundary language file_path st line) := by
  have hf := chunk_brace_flush_ok boundary language file_path line
    (st.brace_count + (pyCountChar line '\x7b' : Int) - (pyCountChar line '\x7d' : Int)) st h
  unfold chunk_brace_step braceStateOk
  dsimp only
  exact ⟨fun c hm => hf.1 c hm, hf.2⟩

theorem chunk_brace_foldl_ok (boundary : String → Bool) (language file_path : String) :
    ∀ (lines : List String) (st : BraceChunkState), braceStateOk st →
      braceStateOk (lines.foldl (chunk_brace_step boundary language file_path) st) := by
  intro lines
  induction lines with
  | nil => intro st h; exact h
  | cons l t ih => intro st h; exact ih _ (chunk_brace_step_ok boundary language file_path l st h)

/-- Every chunk of a brace-counting chunker has `start_line ≤ end_line`. -/
theorem chunk_brace_code_bounds (boundary : String → Bool) (language : String)
    (lines : List String) (file_path : String) :
    ∀ c ∈ chunk_brace_code boundary language lines file_path, c.start_line ≤ c.end_line := by
  intro c hmem
  unfold chunk_brace_code at hmem
  dsimp only at hmem
  have h := chunk_brace_foldl_ok boundary language file_path lines ⟨[], [], 0, 0, 0⟩
    ⟨by simp, Nat.le_refl 0⟩
  split at hmem
  · rcases List.mem_append.mp hmem with hm | hm
    · exact h.1 c hm
    · rcases List.mem_singleton.mp hm with rfl
      simpa using h.2
  · exact h.1 c hmem

/-- Every chunk of `_chunk_code_by_size` has `1 ≤ start_line ≤ end_line`. -/
theorem chunk_code_by_size_bounds (content file_path language : String) :
    ∀ c ∈ chunk_code_by_size content file_path language,
      1 ≤ c.start_line ∧ c.start_line ≤ c.end_line := by
  intro c hmem
  unfold chunk_code_by_size at hmem
  rcases List.mem_map.mp hmem with ⟨w, _, rfl⟩
  constructor
  · simp
  · simp

/-- C3 (amended): every chunk produced by any strategy satisfies
`start_line ≤ end_line`, and every size-based chunk additionally satisfies
`1 ≤ start_line`; the indentation- and brace-counting strategies, however,
emit their first chunk with `start_line = 0` (see the counterexample), so
the claimed lower bound `1 ≤ start_line` holds only for the size-based
strategy. -/
theorem chunk_line_bounds :
    (∀ content file_path language : String,
      ∀ c ∈ chunk_code_by_structure content file_path language,
        c.start_line ≤ c.end_line) ∧
    (∀ content file_path language : String,
      ∀ c ∈ chunk_code_by_size content file_path language,
        1 ≤ c.start_line ∧ c.start_line ≤ c.end_line) := by
  constructor
  · intro content file_path language c hmem
    unfold chunk_code_by_structure at hmem
    split_ifs at hmem
    · exact chunk_python_code_bounds _ _ c hmem
    · exact chunk_brace_code_bounds _ _ _ _ c hmem
    · exact chunk_brace_code_bounds _ _ _ _ c hmem
    · exact (chunk_code_by_size_bounds _ _ _ c hmem).2
  · exact chunk_code_by_size_bounds

/-- Witness for C3's amended theorem on a concrete Python input and a
concrete size-chunked input. -/
theorem chunk_line_bounds_witness :
    ((⟨"w.py", "general", "q = 1", 0, 1, "python", [], []⟩ : CodeChunk) ∈
        chunk_code_by_structure "q = 1" "w.py" "python" ∧
      (0 : Nat) ≤ 1) ∧
    ((⟨"w.txt", "general", "hello", 1, 1, "text", [], []⟩ : CodeChunk) ∈
        chunk_code_by_size "hello" "w.txt" "text" ∧
      (1 ≤ 1 ∧ (1 : Nat) ≤ 1)) :=
  ⟨⟨by decide, chunk_line_bounds.1 "q = 1" "w.py" "python"
      ⟨"w.py", "general", "q = 1", 0, 1, "python", [], []⟩ (by decide)⟩,
   ⟨by decide, chunk_line_bounds.2 "hello" "w.txt" "text"
      ⟨"w.txt", "general", "hello", 1, 1, "text", [], []⟩ (by decide)⟩⟩

theorem sizeWindows_length (n : Nat) : (sizeWindows n).length = (n + 449) / 450 := by
  simp [sizeWindows, pyRange0, chunk_size, chunk_overlap]

theorem sizeWindows_getElem (n k : Nat) (h : k < (sizeWindows n).length) :
    (sizeWindows n)[k] = (450 * k, min (450 * k + 500) n) := by
  simp [sizeWindows, pyRange0, chunk_size, chunk_overlap]

/-- Membership characterisation of the size windows. -/
theorem sizeWindows_mem (n : Nat) (w : Nat × Nat) (h : w ∈ sizeWindows n) :
    ∃ k, 450 * k < n ∧ w = (450 * k, min (450 * k + 500) n) := by
  simp only [sizeWindows, pyRange0, chunk_size, chunk_overlap, List.mem_map,
    List.mem_range] at h
  obtain ⟨s, ⟨k, hk, rfl⟩, rfl⟩ := h
  exact ⟨k, by omega, by norm_num⟩

@[simp]
theorem create_chunk_content (content file_path language : String) (s e : Nat) :
    (create_chunk content file_path language s e).content = content := rfl

/-- Splitting the newline count of a prefix at an interior position: the
newlines before a window plus the newlines inside it are the newlines before
its end. -/
theorem count_slice (l : List Char) (ch : Char) (s e : Nat) (hse : s ≤ e) :
    (l.take s).count ch + ((l.drop s).take (e - s)).count ch = (l.take e).count ch := by
  have h1 : (l.drop s).take (e - s) = (l.take e).drop s := by
    have h0 : s + (e - s) = e := by omega
    rw [List.take_drop, h0]
  have h2 : (l.take e).take s = l.take s := by
    rw [List.take_take]
    congr 1
    omega
  calc (l.take s).count ch + ((l.drop s).take (e - s)).count ch
      = ((l.take e).take s).count ch + ((l.take e).drop s).count ch := by rw [h1, h2]
    _ = ((l.take e).take s ++ (l.take e).drop s).count ch := (List.count_append ch _ _).symm
    _ = (l.take e).count ch := by rw [List.take_append_drop]

/-- Prefix monotonicity of the newline count. -/
theorem count_take_mono (l : List Char) (ch : Char) (s e : Nat) (hse : s ≤ e) :
    (l.take s).count ch ≤ (l.take e).count ch := by
  have h2 : (l.take e).take s = l.take s := by
    rw [List.take_take]
    congr 1
    omega
  rw [← h2]
  exact (List.take_sublist s (l.take e)).count_le ch

/-- The default chunk used with `List.getD` in index-based statements. -/
def dummyChunk : CodeChunk := ⟨"", "", "", 0, 0, "", [], []⟩

theorem chunk_code_by_size_length (content file_path language : String) :
    (chunk_code_by_size content file_path language).length =
      (sizeWindows content.data.length).length := by
  simp [chunk_code_by_size]

theorem chunk_code_by_size_getElem (content file_path language : String) (k : Nat)
    (h : k < (chunk_code_by_size content file_path language).length) :
    (chunk_code_by_size content file_path language)[k] =
      create_chunk (pySlice content (450 * k) (min (450 * k + 500) content.data.length))
        file_path language
        ((content.data.take (450 * k)).count '\n' + 1)
        ((content.data.take (450 * k)).count '\n' + 1 +
          (pySlice content (450 * k) (min (450 * k + 500) content.data.length)).data.count '\n') := by
  have hlen : k < (sizeWindows content.data.length).length := by
    rw [← chunk_code_by_size_length content file_path language]
    exact h
  unfold chunk_code_by_size
  rw [List.getElem_map]
  rw [sizeWindows_getElem _ _ hlen]

theorem chunk_start_line_eq (content file_path language : String) (k : Nat)
    (h : k < (chunk_code_by_size content file_path language).length) :
    ((chunk_code_by_size content file_path language)[k]).start_line =
      (content.data.take (450 * k)).count '\n' + 1 := by
  rw [chunk_code_by_size_getElem _ _ _ _ h]
  rfl

theorem chunk_end_line_eq (content file_path language : String) (k : Nat)
    (h : k < (chunk_code_by_size content file_path language).length) :
    ((chunk_code_by_size content file_path language)[k]).end_line =
      (content.data.take (min (450 * k + 500) content.data.length)).count '\n' + 1 := by
  rw [chunk_code_by_size_getElem _ _ _ _ h]
  simp only [create_chunk_end_line]
  have hl := chunk_code_by_size_length content file_path language
  have hl2 := sizeWindows_length content.data.length
  have hs : 450 * k ≤ min (450 * k + 500) content.data.length := by omega
  have hc := count_slice content.data '\n' (450 * k)
    (min (450 * k + 500) content.data.length) hs
  simp only [pySlice] at hc ⊢
  omega

/-- C6: for the size-based strategy, (i) every produced chunk's content is at
most `chunk_size = 500` characters long; (ii) the character windows of two
consecutive chunks overlap by exactly `chunk_overlap = 50` characters,
except possibly for the pair involving the last chunk; and (iii) for
non-empty content (the pipeline never hands empty content to a chunker —
`_chunk_file` returns early below 50 characters) the chunk line ranges cover
the whole file with no gaps: the first chunk starts at line 1, the last
chunk ends at the last line, and each chunk starts no later than the line
where its predecessor ends. -/
theorem chunk_code_by_size_spec :
    (∀ content file_path language : String,
      ∀ c ∈ chunk_code_by_size content file_path language,
        c.content.data.length ≤ chunk_size) ∧
    (∀ n i : Nat, i + 2 < (sizeWindows n).length →
      ((sizeWindows n).getD i (0, 0)).2 =
        ((sizeWindows n).getD (i + 1) (0, 0)).1 + chunk_overlap) ∧
    (∀ content file_path language : String, content ≠ "" →
      ((chunk_code_by_size content file_path language).getD 0 dummyChunk).start_line = 1 ∧
      ((chunk_code_by_size content file_path language).getLast?.getD dummyChunk).end_line =
        content.data.count '\n' + 1 ∧
      (∀ i : Nat, i + 1 < (chunk_code_by_size content file_path language).length →
        ((chunk_code_by_size content file_path language).getD (i + 1) dummyChunk).start_line ≤
          ((chunk_code_by_size content file_path language).getD i dummyChunk).end_line)) := by
  refine ⟨?_, ?_, ?_⟩
  · intro content file_path language c hmem
    unfold chunk_code_by_size at hmem
    rcases List.mem_map.mp hmem with ⟨w, hw, rfl⟩
    rcases sizeWindows_mem _ _ hw with ⟨k, hk, rfl⟩
    simp only [create_chunk_content, pySlice, chunk_size]
    simp only [String.length, List.length_take, List.length_drop]
    omega
  · intro n i h
    have h1 : i < (sizeWindows n).length := by omega
    have h2 : i + 1 < (sizeWindows n).length := by omega
    rw [List.getD_eq_getElem?_getD, List.getD_eq_getElem?_getD,
      List.getElem?_eq_getElem h1, List.getElem?_eq_getElem h2]
    simp only [Option.getD_some]
    rw [sizeWindows_getElem _ _ h1, sizeWindows_getElem _ _ h2]
    have h3 := sizeWindows_length n
    simp only [chunk_overlap]
    omega
  · intro content file_path language hne
    have hn : 1 ≤ content.data.length := by
      rcases content with ⟨d⟩
      cases d with
      | nil => exact absurd rfl hne
      | cons a t => simp
    have hl := chunk_code_by_size_length content file_path language
    have hl2 := sizeWindows_length content.data.length
    have hpos : 0 < (chunk_code_by_size content file_path language).length := by omega
    refine ⟨?_, ?_, ?_⟩
    · rw [List.getD_eq_getElem?_getD, List.getElem?_eq_getElem hpos, Option.getD_some]
      rw [chunk_start_line_eq content file_path language 0 hpos]
      simp
    · have hk : (chunk_code_by_size content file_path language).length - 1 <
          (chunk_code_by_size content file_path language).length := by omega
      rw [List.getLast?_eq_getElem?, List.getElem?_eq_getElem hk, Option.getD_some]
      rw [chunk_end_line_eq content file_path language _ hk]
      have he : min (450 * ((chunk_code_by_size content file_path language).length - 1) + 500)
          content.data.length = content.data.length := by omega
      rw [he, List.take_length]
    · intro i hi
      have h1 : i < (chunk_code_by_size content file_path language).length := by omega
      rw [List.getD_eq_getElem?_getD, List.getD_eq_getElem?_getD,
        List.getElem?_eq_getElem hi, List.getElem?_eq_getElem h1]
      simp only [Option.getD_some]
      rw [chunk_start_line_eq content file_path language _ hi,
        chunk_end_line_eq content file_path language _ h1]
      have hmono := count_take_mono content.data '\n' (450 * (i + 1))
        (min (450 * i + 500) content.data.length) (by omega)
      omega

/-- Witness for C6 at concrete inputs: a five-character content for the
length and coverage conjuncts, and a 901-character window layout (three
windows) for the exact-overlap conjunct. -/
theorem chunk_code_by_size_spec_witness :
    ((⟨"s.txt", "general", "abcde", 1, 1, "text", [], []⟩ : CodeChunk).content.data.length ≤
      chunk_size) ∧
    (((sizeWindows 901).getD 0 (0, 0)).2 =
      ((sizeWindows 901).getD (0 + 1) (0, 0)).1 + chunk_overlap) ∧
    (((chunk_code_by_size "abcde" "s.txt" "text").getD 0 dummyChunk).start_line = 1 ∧
     ((chunk_code_by_size "abcde" "s.txt" "text").getLast?.getD dummyChunk).end_line =
       ("abcde" : String).data.count '\n' + 1 ∧
     (∀ i : Nat, i + 1 < (chunk_code_by_size "abcde" "s.txt" "text").length →
       ((chunk_code_by_size "abcde" "s.txt" "text").getD (i + 1) dummyChunk).start_line ≤
         ((chunk_code_by_size "abcde" "s.txt" "text").getD i dummyChunk).end_line)) :=
  ⟨chunk_code_by_size_spec.1 "abcde" "s.txt" "text"
     ⟨"s.txt", "general", "abcde", 1, 1, "text", [], []⟩ (by decide),
   chunk_code_by_size_spec.2.1 901 0 (by decide),
   chunk_code_by_size_spec.2.2 "abcde" "s.txt" "text" (by decide)⟩

/-- Two equal-similarity stored rows, in storage order `[rowA, rowB]`, used
to refute the stable-tie conjunct of the search claim. -/
def rowA : StoredRow := ⟨"r1", "a", "ca", "t", "js"⟩

/-- See `rowA`. -/
def rowB : StoredRow := ⟨"r1", "b", "cb", "t", "js"⟩

/-- A similarity function giving every row the same score, producing a tie. -/
def simTie : StoredRow → ℚ := fun _ => 1

/-- Counterexample to C1 as stated: the claim's stable-tie conjunct — for
every score value `q`, the returned rows scoring `q` are a subsequence of
the stored rows scoring `q` in storage (first-inserted) order — is not
guaranteed by the code.  The SQL orders by `similarity_score DESC` with no
secondary sort key (source line 131) and the database's sort is not
specified to be stable, so on the two-row store `[rowA, rowB]` with equal
scores the query semantics admits the fetched list `[rowB, rowA]`, which
reverses storage order; the stable-tie property fails for it at `q = 1`. -/
theorem search_similar_code_ties_not_stable :
    ¬ ∀ out : List StoredRow,
        sql_query_outcome [rowA, rowB] simTie none 0 10 out →
        ∀ q : ℚ, (out.filter fun r => decide (simTie r = q)).Sublist
          ([rowA, rowB].filter fun r => decide (simTie r = q)) := by
  intro h
  have hout : sql_query_outcome [rowA, rowB] simTie none 0 10 [rowB, rowA] := by
    refine ⟨[rowB, rowA], ?_, ?_, rfl⟩
    · have hf : [rowA, rowB].filter (rowPasses simTie none 0) = [rowA, rowB] := by
        simp [rowPasses, simTie]
      rw [hf]
      exact List.Perm.swap rowA rowB []
    · simp [simTie]
  have hsub := h [rowB, rowA] hout 1
  simp only [simTie, decide_eq_true_eq] at hsub
  rw [List.filter_eq_self.mpr (fun a ha => by simp),
    List.filter_eq_self.mpr (fun a ha => by simp)] at hsub
  have heq : [rowB, rowA] = [rowA, rowB] := hsub.eq_of_length rfl
  simp [rowA, rowB] at heq

/-- C1 (amended): for every fetched row list the SQL query semantics admits,
the converted result of `search_similar_code` has at most `limit` elements,
is sorted by non-increasing `similarity_score`, and every returned score is
at least `similarity_threshold` (the `WHERE` clause keeps only strictly
greater scores, which implies the claimed bound).  The relative order of
equal-score rows is NOT determined by the code: the `ORDER BY` has no
tie-break key, so any descending-sorted permutation of the filtered rows is
admissible (see the counterexample). -/
theorem search_similar_code_sorted_bounded (rows : List StoredRow)
    (sim : StoredRow → ℚ) (repository_ids : Option (List String))
    (similarity_threshold : ℚ) (limit : Nat) (out : List StoredRow)
    (h : sql_query_outcome rows sim repository_ids similarity_threshold limit out) :
    (search_similar_code_results sim out).length ≤ limit ∧
    (search_similar_code_results sim out).Pairwise
      (fun a b => b.similarity_score ≤ a.similarity_score) ∧
    ∀ r ∈ search_similar_code_results sim out,
      similarity_threshold ≤ r.similarity_score := by
  obtain ⟨sorted, hperm, hsorted, rfl⟩ := h
  refine ⟨?_, ?_, ?_⟩
  · simp only [search_similar_code_results, List.length_map, List.length_take]
    exact Nat.min_le_left _ _
  · have htake := hsorted.sublist (List.take_sublist limit sorted)
    unfold search_similar_code_results
    rw [List.pairwise_map]
    exact htake.imp fun hab => hab
  · intro r hr
    simp only [search_similar_code_results, List.mem_map] at hr
    obtain ⟨row, hrow, rfl⟩ := hr
    have h1 : row ∈ sorted := List.mem_of_mem_take hrow
    have h2 : row ∈ rows.filter (rowPasses sim repository_ids similarity_threshold) :=
      hperm.mem_iff.mp h1
    have h4 := (List.mem_filter.mp h2).2
    simp only [rowPasses, Bool.and_eq_true, decide_eq_true_eq] at h4
    exact le_of_lt h4.2

/-- Two stored rows used to witness `search_similar_code_sorted_bounded`. -/
def rowsW : List StoredRow :=
  [⟨"r1", "a", "ca", "t", "js"⟩, ⟨"r1", "b", "cb", "t", "js"⟩]

/-- A concrete similarity function for the witness: row `a` scores 1, any
other row scores 0. -/
def simW : StoredRow → ℚ := fun r => if r.file_path = "a" then 1 else 0

/-- Witness for C1's amended theorem at a concrete store: with threshold 0
and limit 10 the admissible fetched list is exactly row `a`, and the three
bounds hold for the converted result. -/
theorem search_similar_code_sorted_bounded_witness :
    sql_query_outcome rowsW simW none 0 10 [⟨"r1", "a", "ca", "t", "js"⟩] ∧
    ((search_similar_code_results simW [⟨"r1", "a", "ca", "t", "js"⟩]).length ≤ 10 ∧
     (search_similar_code_results simW [⟨"r1", "a", "ca", "t", "js"⟩]).Pairwise
       (fun a b => b.similarity_score ≤ a.similarity_score) ∧
     ∀ r ∈ search_similar_code_results simW [⟨"r1", "a", "ca", "t", "js"⟩],
       (0 : ℚ) ≤ r.similarity_score) := by
  have hout : sql_query_outcome rowsW simW none 0 10 [⟨"r1", "a", "ca", "t", "js"⟩] := by
    refine ⟨[⟨"r1", "a", "ca", "t", "js"⟩], ?_, ?_, rfl⟩
    · have hf : rowsW.filter (rowPasses simW none 0) = [⟨"r1", "a", "ca", "t", "js"⟩] := by
        simp [rowsW, rowPasses, simW]
      rw [hf]
    · simp
  exact ⟨hout, search_similar_code_sorted_bounded rowsW simW none 0 10 _ hout⟩
